import Mathlib

/-!
Verification of the quad-form repository's identifier classification,
prefix expansion/contraction, object-tag state handling, and submission
logic.

The repository contains two cited iterations of the `QuadFormWC` widget:
  * `src/unnamed/part_002` — the unified FULL|TINY|NANO iteration, whose
    `validateField` classifies URNs/URIs/CURIEs and whose `expandQName`
    refuses to expand MMM-URN and standard schemes; modelled in
    namespace `P2`.
  * `src/src/quad-form.js` — the earlier iteration with a regex-based
    qname validator and an unconditional prefix-table `expandQName`;
    modelled in namespace `QF`.
Shared helpers model the JavaScript string primitives the code uses
(`indexOf(':')`-splitting, `includes('://')`, `trim`, `toLowerCase`,
`startsWith`, the local-name regex) over Lean strings, character by
character, exactly as the ECMAScript operations behave on these inputs.
-/

set_option maxHeartbeats 1000000

namespace QuadFormModel

/-- Whitespace as recognised by JavaScript `String.prototype.trim` on the
ASCII range (space, tab, LF, CR, VT, FF). -/
def isWs (c : Char) : Bool :=
  c = ' ' || c = '\t' || c = '\n' || c = '\r' || c = '\x0b' || c = '\x0c'

/-- Model of JavaScript `value.trim()`: strip whitespace from both ends. -/
def jsTrim (s : String) : String :=
  ⟨(((s.data.dropWhile isWs).reverse).dropWhile isWs).reverse⟩

/-- Does `l` contain `pat` as a contiguous infix?  Model of JavaScript
`String.prototype.includes` on the underlying character sequences. -/
def listIncludes (pat : List Char) : List Char → Bool
  | [] => pat.isEmpty
  | c :: t => pat.isPrefixOf (c :: t) || listIncludes pat t

/-- Model of JavaScript `s.includes(pat)`. -/
def includesSub (s pat : String) : Bool := listIncludes pat.data s.data

/-- Model of JavaScript `s.startsWith(pre)`. -/
def jsStartsWith (s pre : String) : Bool := pre.data.isPrefixOf s.data

/-- Model of JavaScript `s.toLowerCase()` (ASCII case folding, which is
all the source ever feeds it). -/
def jsToLower (s : String) : String := ⟨s.data.map Char.toLower⟩

/-- Split at the first `:`: models the
`colonIndex = value.indexOf(':'); value.substring(0, colonIndex);
value.substring(colonIndex + 1)` idiom.  Returns `none` when there is no
colon (`indexOf` returned `-1`). -/
def splitFirstColon (s : String) : Option (String × String) :=
  match s.data.dropWhile (fun c => c != ':') with
  | [] => none
  | _ :: rest => some (⟨s.data.takeWhile (fun c => c != ':')⟩, ⟨rest⟩)

/-- Model of `value.split(':')[0]`: everything before the first colon. -/
def splitHead (s : String) : String := ⟨s.data.takeWhile (fun c => c != ':')⟩

/-- First character class of the local-name regex `^[a-zA-Z_][\w-]*$`. -/
def isWordStart (c : Char) : Bool := c.isAlpha || c = '_'

/-- Continuation character class `[\w-]` of the local-name regex. -/
def isWordChar (c : Char) : Bool := c.isAlphanum || c = '_' || c = '-'

/-- Model of `/^[a-zA-Z_][\w-]*$/.test(s)`. -/
def matchLocalName (s : String) : Bool :=
  match s.data with
  | [] => false
  | c :: rest => isWordStart c && rest.all isWordChar

/-- Model of `/^[a-zA-Z_][\w-]*:[a-zA-Z_][\w-]*$/.test(s)`: both the part
before the first colon and the part after it match the local-name
grammar (neither class admits a colon, so this is exactly the regex). -/
def matchQName (s : String) : Bool :=
  match splitFirstColon s with
  | none => false
  | some (p, l) => matchLocalName p && matchLocalName l

/-- The prefix table: a JavaScript plain object with string keys, i.e. an
insertion-ordered association list with unique keys. -/
abbrev PrefixTable := List (String × String)

/-- Model of `obj.hasOwnProperty(k)` / `obj[k]` on the prefix table:
first (and, keys being unique, only) binding of `k`. -/
def lookupKey : PrefixTable → String → Option String
  | [], _ => none
  | (k, v) :: rest, key => if k = key then some v else lookupKey rest key

/-- `COMMON_PREFIXES` — identical in `src/unnamed/part_002` (lines 32-45)
and `src/src/quad-form.js` (lines 20-33). -/
def COMMON_PREFIXES : PrefixTable :=
  [ ("rdf", "http://www.w3.org/1999/02/22-rdf-syntax-ns#"),
    ("rdfs", "http://www.w3.org/2000/01/rdf-schema#"),
    ("owl", "http://www.w3.org/2002/07/owl#"),
    ("xsd", "http://www.w3.org/2001/XMLSchema#"),
    ("foaf", "http://xmlns.com/foaf/0.1/"),
    ("dc", "http://purl.org/dc/elements/1.1/"),
    ("dcterms", "http://purl.org/dc/terms/"),
    ("schema", "http://schema.org/"),
    ("mntl", "urn:mmm:mntl:"),
    ("iii", "urn:mmm:iii:"),
    ("ex", "http://example.org/"),
    ("wp", "https://en.wikipedia.org/wiki/") ]

/-- `MMM_URN_SCHEMES` (part_002 lines 80-88): the reserved,
application-internal URN schemes. -/
def MMM_URN_SCHEMES : List String :=
  ["trpl", "quad", "snip", "atby", "mntl", "iii", "time"]

/-- `STANDARD_SCHEMES` (part_002 lines 94-100): well-known URI/URN
schemes. -/
def STANDARD_SCHEMES : List String :=
  [ "http", "https", "ftp", "ftps", "file", "data",
    "mailto", "tel", "sms", "geo",
    "urn", "isbn", "issn", "doi", "uuid", "oid", "lex" ]

namespace P2

/-- `validateField` of `src/unnamed/part_002` (lines 278-330).  The
`field` argument is unused by the source logic and omitted. -/
def validateField (ps : PrefixTable) (value ty : String) : Bool :=
  if value = "" || jsTrim value = "" then false
  else if ty = "uri" || ty = "qname" then
    match splitFirstColon value with
    | none => false
    | some (scheme0, nss) =>
      if scheme0 = "" then false
      else if nss = "" then false
      else
        let scheme := jsToLower scheme0
        if MMM_URN_SCHEMES.contains scheme then true
        else if STANDARD_SCHEMES.contains scheme then true
        else if (lookupKey ps scheme).isSome then matchLocalName nss
        else false
  else true

/-- `expandQName` of `src/unnamed/part_002` (lines 2053-2077). -/
def expandQName (ps : PrefixTable) (value : String) : String :=
  if value = "" || includesSub value "://" then value
  else
    match splitFirstColon value with
    | none => value
    | some (pfx, localPart) =>
      if MMM_URN_SCHEMES.contains pfx || STANDARD_SCHEMES.contains pfx then value
      else
        match lookupKey ps pfx with
        | some expn => if expn = "" then value else expn ++ localPart
        | none => value

/-- Shared loop of both `contractUri` versions: first table entry whose
expansion is a prefix of `value` wins (`Object.entries` iterates in
insertion order). -/
def contractGo (value : String) : PrefixTable → String
  | [] => value
  | (pfx, expn) :: rest =>
    if jsStartsWith value expn then pfx ++ ":" ++ ⟨value.data.drop expn.data.length⟩
    else contractGo value rest

/-- `contractUri` of `src/unnamed/part_002` (lines 2079-2087): no guard,
scan the table directly. -/
def contractUri (ps : PrefixTable) (value : String) : String := contractGo value ps

end P2

namespace QF

/-- `validateField` of `src/src/quad-form.js` (lines 199-223). -/
def validateField (ps : PrefixTable) (value ty : String) : Bool :=
  if value = "" || jsTrim value = "" then false
  else if ty = "qname" then
    if matchQName value then (lookupKey ps (splitHead value)).isSome else false
  else if ty = "uri" then includesSub value "://"
  else true

/-- `expandQName` of `src/src/quad-form.js` (lines 1697-1711): no scheme
guard, only the `://` check and the prefix table. -/
def expandQName (ps : PrefixTable) (value : String) : String :=
  if value = "" || includesSub value "://" then value
  else
    match splitFirstColon value with
    | none => value
    | some (pfx, localPart) =>
      match lookupKey ps pfx with
      | some expn => if expn = "" then value else expn ++ localPart
      | none => value

/-- `contractUri` of `src/src/quad-form.js` (lines 1713-1724): returns
the input unchanged unless it contains `://`. -/
def contractUri (ps : PrefixTable) (uri : String) : String :=
  if uri = "" || !(includesSub uri "://") then uri
  else P2.contractGo uri ps

end QF

/-- The record built by `handleSubmit` (both files): the FLAT quad with
attribution.  `at`/`by` are Lean keywords, so they appear as `ts`/`attrBy`;
`d`/`l` are `Option` because the JavaScript object omits the properties
when the corresponding tag is absent. -/
structure Quad where
  s : String
  p : String
  o : String
  g : String
  ts : String
  attrBy : String
  d : Option String
  l : Option String
deriving Repr, DecidableEq

/-- The form's component state, restricted to what the modelled
operations read and write: `fieldValues`, `fieldTypes`, the object
metadata, and the configuration surface. -/
structure FormState where
  subject : String
  predicate : String
  object : String
  graph : String
  subjectType : String
  predicateType : String
  objectType : String
  graphType : String
  objectDatatype : String
  objectLanguage : String
  prefixes : PrefixTable
  expandQNames : Bool
  currentIdentity : String
  defaultGraph : String
deriving Repr, DecidableEq

/-- `clear()` — field/type/metadata resets common to part_002 (lines
2178-2198) and quad-form.js (lines 1805-1823): values emptied, graph set
to the configured default, types reset to their constructor defaults,
datatype and language tags cleared. -/
def clearState (st : FormState) : FormState :=
  { st with
    subject := "", predicate := "", object := "",
    graph := st.defaultGraph,
    subjectType := "uri", predicateType := "qname",
    objectType := "uri", graphType := "qname",
    objectDatatype := "", objectLanguage := "" }

/-- `getField(name)` (quad-form.js lines 1793-1795, part_002 lines
2166-2168): `this.fieldValues[name] || ''`.  An unknown name reads
`undefined`, hence `''`. -/
def getField (st : FormState) (name : String) : String :=
  if name = "subject" then st.subject
  else if name = "predicate" then st.predicate
  else if name = "object" then st.object
  else if name = "graph" then st.graph
  else ""

/-- Attribution identity: `this._currentIdentity || 'anonymous'`; the
empty string models an unset (`null`) identity. -/
def attributionOf (st : FormState) : String :=
  if st.currentIdentity = "" then "anonymous" else st.currentIdentity

/-- Datatype property of the submitted quad: added only when the tag is
set and differs from `xsd:string` (both files). -/
def quadDatatype (st : FormState) : Option String :=
  if st.objectDatatype ≠ "" && st.objectDatatype ≠ "xsd:string" then some st.objectDatatype
  else none

/-- Language property of the submitted quad: added whenever the tag is a
non-empty string (both files). -/
def quadLanguage (st : FormState) : Option String :=
  if st.objectLanguage ≠ "" then some st.objectLanguage else none

/-- Observable notifications of a submission relevant to the claims:
the `quad-submitted` event and the `quad-error` event. -/
inductive Ev where
  | submitted (q : Quad)
  | quadError
deriving Repr, DecidableEq

/-- Outcome of the optional storage collaborator: `none` = no
`mmmServer` injected, `some true` = `addQuad` resolves, `some false` =
`addQuad` rejects. -/
abbrev StorageOutcome := Option Bool

/-- Events dispatched after the quad is built, and whether the storage
collaborator was invoked: `quad-submitted` always fires first; the
storage sink is called only when present; `quad-error` fires only on
rejection (the `catch` branch of both files). -/
def submitEffects (storage : StorageOutcome) (q : Quad) : List Ev × Bool :=
  match storage with
  | none => ([Ev.submitted q], false)
  | some true => ([Ev.submitted q], true)
  | some false => ([Ev.submitted q, Ev.quadError], true)

namespace P2

/-- Quad assembly of part_002 `handleSubmit` (lines 2010-2027). -/
def buildQuad (st : FormState) (ts : String) : Quad :=
  { s := if st.expandQNames then expandQName st.prefixes st.subject else st.subject,
    p := if st.expandQNames then expandQName st.prefixes st.predicate else st.predicate,
    o := if st.expandQNames then expandQName st.prefixes st.object else st.object,
    g := if st.expandQNames then expandQName st.prefixes st.graph else st.graph,
    ts := ts,
    attrBy := attributionOf st,
    d := quadDatatype st,
    l := quadLanguage st }

/-- `validate()` of part_002 (lines 1940-1977): required fields per
display mode, all checked for JavaScript truthiness. -/
def validateOk (mode : String) (st : FormState) : Bool :=
  if mode = "nano" then !(st.object = "")
  else if mode = "tiny" then
    !(st.subject = "") && !(st.predicate = "") && !(st.object = "")
  else
    !(st.subject = "") && !(st.predicate = "") && !(st.object = "") && !(st.graph = "")

/-- `handleSubmit` of part_002 (lines 1979-2027) up to the point where
the quad is built: `none` means the handler returned without building or
emitting anything; `some (q, st')` is the built quad together with the
field state after the mode-specific default filling. -/
def handleSubmit (mode : String) (st : FormState) (ts : String) :
    Option (Quad × FormState) :=
  if mode = "nano" then
    if st.object = "" || jsTrim st.object = "" then none
    else
      let st1 :=
        { st with
          subject := if st.subject = "" then "ex:DefaultSubject" else st.subject,
          predicate := if st.predicate = "" then "rdfs:comment" else st.predicate,
          graph := if st.graph = "" then st.defaultGraph else st.graph }
      some (buildQuad st1 ts, st1)
  else if mode = "tiny" then
    let st1 := { st with graph := if st.graph = "" then st.defaultGraph else st.graph }
    if validateOk mode st1 then some (buildQuad st1 ts, st1) else none
  else
    if validateOk mode st then some (buildQuad st ts, st) else none

/-- Full observable run of part_002 `handleSubmit` (lines 1979-2051):
events dispatched, whether storage was called, and the final field
state.  Part_002 never clears the form after submission ("Form stays
populated after submit", line 2050). -/
def submitRun (mode : String) (storage : StorageOutcome) (st : FormState) (ts : String) :
    List Ev × Bool × FormState :=
  match handleSubmit mode st ts with
  | none => ([], false, st)
  | some (q, st1) =>
    let eff := submitEffects storage q
    (eff.1, eff.2, st1)

end P2

namespace QF

/-- Quad assembly of quad-form.js `handleSubmit` (lines 1651-1669). -/
def buildQuad (st : FormState) (ts : String) : Quad :=
  { s := if st.expandQNames then expandQName st.prefixes st.subject else st.subject,
    p := if st.expandQNames then expandQName st.prefixes st.predicate else st.predicate,
    o := if st.expandQNames then expandQName st.prefixes st.object else st.object,
    g := if st.expandQNames then expandQName st.prefixes st.graph else st.graph,
    ts := ts,
    attrBy := attributionOf st,
    d := quadDatatype st,
    l := quadLanguage st }

/-- `validate()` of quad-form.js (lines 1609-1633): all four fields
required. -/
def validateOk (st : FormState) : Bool :=
  !(st.subject = "") && !(st.predicate = "") && !(st.object = "") && !(st.graph = "")

/-- Full observable run of quad-form.js `handleSubmit` (lines
1635-1695): on success or with no storage sink the form is cleared
(`this.clear()`); on rejection the `catch` branch fires `quad-error` and
leaves the state untouched. -/
def submitRun (storage : StorageOutcome) (st : FormState) (ts : String) :
    List Ev × Bool × FormState :=
  if validateOk st then
    let q := buildQuad st ts
    match storage with
    | none => ([Ev.submitted q], false, clearState st)
    | some true => ([Ev.submitted q], true, clearState st)
    | some false => ([Ev.submitted q, Ev.quadError], true, st)
  else ([], false, st)

end QF

/-- Object metadata sub-state driven by `handleTypeChange` and the
language input: the two tags plus the enabled/disabled affordance of the
language input (input events do not fire on a disabled control). -/
structure ObjState where
  datatype : String
  language : String
  langEnabled : Bool
deriving Repr, DecidableEq

/-- Constructor state: both tags empty; the language input is rendered
`disabled` while `objectUsesTextarea` is false (part_002 line 1133). -/
def initObjState : ObjState := ⟨"", "", false⟩

/-- Literal types rendered as a textarea (part_002 lines 1829-1833,
quad-form.js lines 1471-1476); the language input is enabled exactly for
these. -/
def usesTextarea (t : String) : Bool :=
  t = "xsd:string" || t = "rdf:HTML" || t = "rdf:XMLLiteral" ||
  t = "rdf:JSON" || t = "mmmdt:markdown"

/-- Tag effects of `handleTypeChange` on the object field (part_002
lines 1855-1871, quad-form.js lines 1505-1523): switching to
`qname`/`uri` clears both tags and disables the language input; switching
to a literal type sets the datatype tag, toggles the language input with
the textarea, and leaves the language tag as it was. -/
def handleTypeChange (st : ObjState) (newType : String) : ObjState :=
  if newType = "qname" || newType = "uri" then
    { datatype := "", language := "", langEnabled := false }
  else
    { datatype := newType, language := st.language, langEnabled := usesTextarea newType }

/-- `replace(/^@/, '')`: drop a single leading `@`. -/
def stripLeadingAt (s : String) : String :=
  match s.data with
  | '@' :: rest => ⟨rest⟩
  | _ => s

/-- The language-input handler (part_002 lines 1546-1554, quad-form.js
lines 1330-1340): normalise, refuse single-character tags, store the
tag.  Guarded by the control being enabled; it never touches the
datatype tag. -/
def setLanguageInput (st : ObjState) (raw : String) : ObjState :=
  if st.langEnabled then
    let v := jsToLower (stripLeadingAt raw)
    if v.data.length = 1 then { st with language := "" } else { st with language := v }
  else st

/-- Lift an object-tag state into a form state (used to run a concrete
submission pipeline over a reachable tag state). -/
def withTags (st : FormState) (ob : ObjState) : FormState :=
  { st with objectDatatype := ob.datatype, objectLanguage := ob.language }

/-- Verdict of part_002's unified validator on a value containing `://`:
the scheme before the first colon, lowercased, must be a reserved (MMM
URN) or standard scheme, and both split halves must be non-empty. -/
def p2UriVerdict (v : String) : Bool :=
  match splitFirstColon v with
  | none => false
  | some (scheme0, nss) =>
    if scheme0 = "" then false
    else if nss = "" then false
    else
      MMM_URN_SCHEMES.contains (jsToLower scheme0) ||
        STANDARD_SCHEMES.contains (jsToLower scheme0)

/-- A fully populated form state over the built-in prefix table, used to
instantiate the universally quantified theorems at a concrete input. -/
def demoState : FormState :=
  { subject := "ex:Alice", predicate := "foaf:knows", object := "ex:Bob",
    graph := "mntl:publ/scratch",
    subjectType := "uri", predicateType := "qname",
    objectType := "uri", graphType := "qname",
    objectDatatype := "", objectLanguage := "",
    prefixes := COMMON_PREFIXES, expandQNames := true,
    currentIdentity := "", defaultGraph := "mntl:publ/scratch" }

/-! ### String plumbing lemmas -/

theorem data_append (a b : String) : (a ++ b).data = a.data ++ b.data := by
  cases a; cases b; rfl

theorem data_mid (a b : String) : (a ++ ":" ++ b).data = a.data ++ ':' :: b.data := by
  rw [data_append, data_append, show (":" : String).data = [':'] from rfl,
    List.append_assoc]
  rfl

theorem ne_empty_of_mem {s : String} {c : Char} (hc : c ∈ s.data) : s ≠ "" := by
  intro h
  rw [h] at hc
  cases hc

theorem takeWhile_colon (a l : List Char) (ha : ':' ∉ a) :
    (a ++ ':' :: l).takeWhile (fun c => c != ':') = a := by
  induction a with
  | nil => simp
  | cons c t ih =>
    have hc : (c != ':') = true := by
      simp only [bne_iff_ne, ne_eq]
      intro h
      exact ha (h ▸ List.mem_cons_self c t)
    have ht : ':' ∉ t := fun h => ha (List.mem_cons_of_mem c h)
    simp only [List.cons_append, List.takeWhile_cons, hc, if_true, ih ht]

theorem dropWhile_colon (a l : List Char) (ha : ':' ∉ a) :
    (a ++ ':' :: l).dropWhile (fun c => c != ':') = ':' :: l := by
  induction a with
  | nil => simp
  | cons c t ih =>
    have hc : (c != ':') = true := by
      simp only [bne_iff_ne, ne_eq]
      intro h
      exact ha (h ▸ List.mem_cons_self c t)
    have ht : ':' ∉ t := fun h => ha (List.mem_cons_of_mem c h)
    simp only [List.cons_append, List.dropWhile_cons, hc, if_true, ih ht]

theorem splitFirstColon_append (a b : String) (ha : ':' ∉ a.data) :
    splitFirstColon (a ++ ":" ++ b) = some (a, b) := by
  simp only [splitFirstColon, data_mid, dropWhile_colon a.data b.data ha,
    takeWhile_colon a.data b.data ha]

theorem splitHead_append (a b : String) (ha : ':' ∉ a.data) :
    splitHead (a ++ ":" ++ b) = a := by
  simp only [splitHead, data_mid, takeWhile_colon a.data b.data ha]

theorem dropWhile_head_false {p : Char → Bool} {l : List Char} {c : Char} {t : List Char}
    (h : l.dropWhile p = c :: t) : p c = false := by
  induction l with
  | nil => simp at h
  | cons a l1 ih =>
    by_cases hp : p a
    · rw [List.dropWhile_cons, if_pos hp] at h
      exact ih h
    · rw [List.dropWhile_cons, if_neg hp] at h
      obtain ⟨h1, -⟩ := List.cons.inj h
      rw [← h1]
      exact Bool.not_eq_true _ ▸ hp

theorem splitFirstColon_structure {v p l : String} (h : splitFirstColon v = some (p, l)) :
    v.data = p.data ++ ':' :: l.data ∧ ':' ∉ p.data := by
  unfold splitFirstColon at h
  cases hd : v.data.dropWhile (fun c => c != ':') with
  | nil => rw [hd] at h; cases h
  | cons c rest =>
    rw [hd] at h
    obtain ⟨hp, hl⟩ := Prod.mk.injEq .. ▸ Option.some.inj h
    have hc : c = ':' := by
      have := dropWhile_head_false hd
      simpa using this
    constructor
    · have hsplit := List.takeWhile_append_dropWhile (fun c => c != ':') v.data
      rw [hd, hc] at hsplit
      rw [← hsplit, ← hp, ← hl]
    · intro hmem
      rw [← hp] at hmem
      have := List.mem_takeWhile_imp hmem
      simp at this

theorem listIncludes_subset {pat l : List Char} (h : listIncludes pat l = true) :
    ∀ c ∈ pat, c ∈ l := by
  induction l with
  | nil =>
    simp only [listIncludes] at h
    intro c hc
    rw [List.isEmpty_iff.mp h] at hc
    cases hc
  | cons a t ih =>
    simp only [listIncludes, Bool.or_eq_true] at h
    rcases h with h | h
    · exact fun c hc => (List.isPrefixOf_iff_prefix.mp h).subset hc
    · exact fun c hc => List.mem_cons_of_mem a (ih h c hc)

theorem colon_mem_of_includes {v : String} (h : includesSub v "://" = true) :
    ':' ∈ v.data :=
  listIncludes_subset h ':' (by decide)

theorem slash_mem_of_includes {v : String} (h : includesSub v "://" = true) :
    '/' ∈ v.data :=
  listIncludes_subset h '/' (by decide)

theorem not_includes_of_no_slash {v : String} (h : '/' ∉ v.data) :
    includesSub v "://" = false := by
  cases hinc : includesSub v "://" with
  | false => rfl
  | true => exact absurd (slash_mem_of_includes hinc) h

theorem jsTrim_ne_empty {s : String} {c : Char} (hc : c ∈ s.data) (hw : isWs c = false) :
    jsTrim s ≠ "" := by
  intro h
  have hdata : (((s.data.dropWhile isWs).reverse).dropWhile isWs).reverse = [] :=
    congrArg String.data h
  rw [List.reverse_eq_nil_iff, List.dropWhile_eq_nil_iff] at hdata
  have hc1 : c ∈ s.data.dropWhile isWs := by
    have hsplit := List.takeWhile_append_dropWhile isWs s.data
    rw [← hsplit] at hc
    rcases List.mem_append.mp hc with h1 | h1
    · exact absurd (List.mem_takeWhile_imp h1) (by simp [hw])
    · exact h1
  have := hdata c (List.mem_reverse.mpr hc1)
  rw [hw] at this
  cases this

theorem matchLocalName_parts {s : String} (h : matchLocalName s = true) :
    ∃ c rest, s.data = c :: rest ∧ isWordStart c = true ∧ rest.all isWordChar = true := by
  unfold matchLocalName at h
  cases hd : s.data with
  | nil => rw [hd] at h; cases h
  | cons c rest =>
    rw [hd] at h
    rw [Bool.and_eq_true] at h
    exact ⟨c, rest, rfl, h.1, h.2⟩

theorem matchLocalName_not_mem {s : String} (h : matchLocalName s = true) :
    ':' ∉ s.data ∧ '/' ∉ s.data := by
  obtain ⟨c, rest, hd, hc, hrest⟩ := matchLocalName_parts h
  rw [hd]
  constructor
  · intro hmem
    rcases List.mem_cons.mp hmem with h1 | h1
    · rw [← h1] at hc; cases hc
    · have := List.all_eq_true.mp hrest ':' h1
      cases this
  · intro hmem
    rcases List.mem_cons.mp hmem with h1 | h1
    · rw [← h1] at hc; cases hc
    · have := List.all_eq_true.mp hrest '/' h1
      cases this

theorem no_colon_includes {pat b : List Char} (hb : ':' ∉ b) :
    listIncludes (':' :: pat) b = false := by
  induction b with
  | nil => rfl
  | cons c t ih =>
    have hc : (':' == c) = false := by
      simp only [beq_eq_false_iff_ne, ne_eq]
      intro h
      exact hb (h ▸ List.mem_cons_self c t)
    have ht : ':' ∉ t := fun h => hb (List.mem_cons_of_mem c h)
    simp only [listIncludes, List.isPrefixOf, hc, Bool.false_and, Bool.false_or]
    exact ih ht

theorem no_include_main {a b : List Char} (ha : ':' ∉ a) (hb : ':' ∉ b)
    (hhead : ∀ c t, b = c :: t → c ≠ '/') :
    listIncludes [':', '/', '/'] (a ++ ':' :: b) = false := by
  induction a with
  | nil =>
    simp only [List.nil_append, listIncludes, List.isPrefixOf, beq_self_eq_true,
      Bool.true_and]
    have h2 : listIncludes [':', '/', '/'] b = false := no_colon_includes hb
    rw [h2, Bool.or_false]
    cases b with
    | nil => rfl
    | cons c t =>
      have hc : ('/' == c) = false := by
        simp only [beq_eq_false_iff_ne, ne_eq]
        intro h
        exact hhead c t rfl h.symm
      simp [List.isPrefixOf, hc]
  | cons x a1 ih =>
    have hx : (':' == x) = false := by
      simp only [beq_eq_false_iff_ne, ne_eq]
      intro h
      exact ha (h.symm ▸ List.mem_cons_self x a1)
    have ha1 : ':' ∉ a1 := fun h => ha (List.mem_cons_of_mem x h)
    simp only [List.cons_append, listIncludes, List.isPrefixOf, hx, Bool.false_and,
      Bool.false_or]
    exact ih ha1

theorem includes_false_of_localName {v p l : String}
    (hs : splitFirstColon v = some (p, l)) (hm : matchLocalName l = true) :
    includesSub v "://" = false := by
  obtain ⟨hdata, hpc⟩ := splitFirstColon_structure hs
  obtain ⟨hcl, -⟩ := matchLocalName_not_mem hm
  obtain ⟨c, rest, hld, hcw, -⟩ := matchLocalName_parts hm
  show listIncludes ("://".data) v.data = false
  rw [show ("://" : String).data = [':', '/', '/'] from rfl, hdata]
  refine no_include_main hpc hcl ?_
  intro c1 t1 h1 hc1
  rw [hld] at h1
  obtain ⟨h2, -⟩ := List.cons.inj h1
  rw [h2, hc1] at hcw
  exact absurd hcw (by decide)

/-! ### Validator characterizations on values containing the marker -/

theorem validateField_uri_QF (ps : PrefixTable) (v : String)
    (hv : includesSub v "://" = true) :
    QF.validateField ps v "uri" = true := by
  have hc := colon_mem_of_includes hv
  have hne : v ≠ "" := ne_empty_of_mem hc
  have htrim : jsTrim v ≠ "" := jsTrim_ne_empty hc (by decide)
  simp [QF.validateField, hne, htrim, hv]

theorem validateField_qname_QF (ps : PrefixTable) (v : String)
    (hv : includesSub v "://" = true) :
    QF.validateField ps v "qname" = false := by
  have hc := colon_mem_of_includes hv
  have hsl := slash_mem_of_includes hv
  have hne : v ≠ "" := ne_empty_of_mem hc
  have htrim : jsTrim v ≠ "" := jsTrim_ne_empty hc (by decide)
  have hmq : matchQName v = false := by
    cases hsp : splitFirstColon v with
    | none => simp [matchQName, hsp]
    | some pl =>
      obtain ⟨p, l⟩ := pl
      obtain ⟨hdata, hpc⟩ := splitFirstColon_structure hsp
      simp only [matchQName, hsp]
      cases hp : matchLocalName p with
      | false => simp
      | true =>
        cases hl : matchLocalName l with
        | false => simp
        | true =>
          exfalso
          rw [hdata] at hsl
          rcases List.mem_append.mp hsl with h1 | h1
          · exact (matchLocalName_not_mem hp).2 h1
          · rcases List.mem_cons.mp h1 with h2 | h2
            · exact absurd h2 (by decide)
            · exact (matchLocalName_not_mem hl).2 h2
  simp [QF.validateField, hne, htrim, hmq]

theorem validateField_P2_uri (ps : PrefixTable) (v : String)
    (hv : includesSub v "://" = true) :
    P2.validateField ps v "uri" = p2UriVerdict v := by
  have hc := colon_mem_of_includes hv
  have hne : v ≠ "" := ne_empty_of_mem hc
  have htrim : jsTrim v ≠ "" := jsTrim_ne_empty hc (by decide)
  cases hsp : splitFirstColon v with
  | none => simp [P2.validateField, p2UriVerdict, hne, htrim, hsp]
  | some pl =>
    obtain ⟨scheme0, nss⟩ := pl
    have hml : matchLocalName nss = false := by
      cases hml0 : matchLocalName nss with
      | false => rfl
      | true =>
        have h2 := includes_false_of_localName hsp hml0
        rw [h2] at hv
        cases hv
    by_cases h0 : scheme0 = ""
    · simp [P2.validateField, p2UriVerdict, hne, htrim, hsp, h0]
    by_cases h1 : nss = ""
    · simp [P2.validateField, p2UriVerdict, hne, htrim, hsp, h0, h1]
    by_cases hm : jsToLower scheme0 ∈ MMM_URN_SCHEMES
    · simp [P2.validateField, p2UriVerdict, hne, htrim, hsp, h0, h1, hm]
    by_cases hs2 : jsToLower scheme0 ∈ STANDARD_SCHEMES
    · simp [P2.validateField, p2UriVerdict, hne, htrim, hsp, h0, h1, hm, hs2]
    simp [P2.validateField, p2UriVerdict, hne, htrim, hsp, h0, h1, hm, hs2, hml]

theorem validateField_P2_kind_irrel (ps : PrefixTable) (v : String) :
    P2.validateField ps v "qname" = P2.validateField ps v "uri" := by
  simp [P2.validateField]

/-- Full characterization of both validators on an explicit
`scheme:rest` split. -/
theorem validateField_P2_split (ps : PrefixTable) (scheme nss : String)
    (hcol : ':' ∉ scheme.data) (h0 : scheme ≠ "") (h1 : nss ≠ "") :
    P2.validateField ps (scheme ++ ":" ++ nss) "qname" =
      (MMM_URN_SCHEMES.contains (jsToLower scheme) ||
       STANDARD_SCHEMES.contains (jsToLower scheme) ||
       ((lookupKey ps (jsToLower scheme)).isSome && matchLocalName nss)) := by
  have hsp := splitFirstColon_append scheme nss hcol
  have hcmem : ':' ∈ (scheme ++ ":" ++ nss).data := by
    rw [data_mid]
    exact List.mem_append.mpr (Or.inr (List.mem_cons_self _ _))
  have hne : scheme ++ ":" ++ nss ≠ "" := ne_empty_of_mem hcmem
  have htrim : jsTrim (scheme ++ ":" ++ nss) ≠ "" := jsTrim_ne_empty hcmem (by decide)
  by_cases hm : jsToLower scheme ∈ MMM_URN_SCHEMES
  · simp [P2.validateField, hne, htrim, hsp, h0, h1, hm]
  by_cases hs2 : jsToLower scheme ∈ STANDARD_SCHEMES
  · simp [P2.validateField, hne, htrim, hsp, h0, h1, hm, hs2]
  cases hlk : (lookupKey ps (jsToLower scheme)).isSome with
  | true => simp [P2.validateField, hne, htrim, hsp, h0, h1, hm, hs2, hlk]
  | false => simp [P2.validateField, hne, htrim, hsp, h0, h1, hm, hs2, hlk]

theorem validateField_QF_split (ps : PrefixTable) (scheme nss : String)
    (hcol : ':' ∉ scheme.data) :
    QF.validateField ps (scheme ++ ":" ++ nss) "qname" =
      (matchQName (scheme ++ ":" ++ nss) && (lookupKey ps scheme).isSome) := by
  have hcmem : ':' ∈ (scheme ++ ":" ++ nss).data := by
    rw [data_mid]
    exact List.mem_append.mpr (Or.inr (List.mem_cons_self _ _))
  have hne : scheme ++ ":" ++ nss ≠ "" := ne_empty_of_mem hcmem
  have htrim : jsTrim (scheme ++ ":" ++ nss) ≠ "" := jsTrim_ne_empty hcmem (by decide)
  have hhd := splitHead_append scheme nss hcol
  cases hmq : matchQName (scheme ++ ":" ++ nss) with
  | true => simp [QF.validateField, hne, htrim, hmq, hhd]
  | false => simp [QF.validateField, hne, htrim, hmq]

/-! ### Expansion and contraction lemmas -/

theorem data_ne_nil {s : String} (h : s ≠ "") : s.data ≠ [] :=
  fun hd => h (String.ext (by rw [hd]))

theorem expand_includes_P2 (ps : PrefixTable) (v : String)
    (hv : includesSub v "://" = true) : P2.expandQName ps v = v := by
  simp [P2.expandQName, hv]

theorem expand_includes_QF (ps : PrefixTable) (v : String)
    (hv : includesSub v "://" = true) : QF.expandQName ps v = v := by
  simp [QF.expandQName, hv]

theorem splitFirstColon_none {v : String} (hc : ':' ∉ v.data) :
    splitFirstColon v = none := by
  unfold splitFirstColon
  rw [List.dropWhile_eq_nil_iff.mpr ?_]
  intro x hx
  simp only [bne_iff_ne, ne_eq]
  exact fun h => hc (h ▸ hx)

theorem expand_nocolon_P2 (ps : PrefixTable) (v : String) (hc : ':' ∉ v.data) :
    P2.expandQName ps v = v := by
  have hsp := splitFirstColon_none hc
  by_cases hne : v = ""
  · simp [P2.expandQName, hne]
  cases hinc : includesSub v "://" with
  | true => simp [P2.expandQName, hinc]
  | false => simp [P2.expandQName, hne, hinc, hsp]

theorem expand_nocolon_QF (ps : PrefixTable) (v : String) (hc : ':' ∉ v.data) :
    QF.expandQName ps v = v := by
  have hsp := splitFirstColon_none hc
  by_cases hne : v = ""
  · simp [QF.expandQName, hne]
  cases hinc : includesSub v "://" with
  | true => simp [QF.expandQName, hinc]
  | false => simp [QF.expandQName, hne, hinc, hsp]

theorem expand_unknown_P2 (ps : PrefixTable) (v pfx rest : String)
    (hsp : splitFirstColon v = some (pfx, rest)) (hlk : lookupKey ps pfx = none) :
    P2.expandQName ps v = v := by
  by_cases hne : v = ""
  · simp [P2.expandQName, hne]
  cases hinc : includesSub v "://" with
  | true => simp [P2.expandQName, hinc]
  | false =>
    by_cases hm : pfx ∈ MMM_URN_SCHEMES
    · simp [P2.expandQName, hne, hinc, hsp, hm]
    by_cases hs2 : pfx ∈ STANDARD_SCHEMES
    · simp [P2.expandQName, hne, hinc, hsp, hm, hs2]
    simp [P2.expandQName, hne, hinc, hsp, hm, hs2, hlk]

theorem expand_unknown_QF (ps : PrefixTable) (v pfx rest : String)
    (hsp : splitFirstColon v = some (pfx, rest)) (hlk : lookupKey ps pfx = none) :
    QF.expandQName ps v = v := by
  by_cases hne : v = ""
  · simp [QF.expandQName, hne]
  cases hinc : includesSub v "://" with
  | true => simp [QF.expandQName, hinc]
  | false => simp [QF.expandQName, hne, hinc, hsp, hlk]

theorem no_slash_of_grammar {pfx localName : String}
    (hk : matchLocalName pfx = true) (hl : matchLocalName localName = true) :
    '/' ∉ (pfx ++ ":" ++ localName).data := by
  rw [data_mid]
  intro hmem
  rcases List.mem_append.mp hmem with h1 | h1
  · exact (matchLocalName_not_mem hk).2 h1
  · rcases List.mem_cons.mp h1 with h2 | h2
    · exact absurd h2 (by decide)
    · exact (matchLocalName_not_mem hl).2 h2

theorem mid_ne_empty (a b : String) : a ++ ":" ++ b ≠ "" :=
  ne_empty_of_mem (c := ':')
    (by rw [data_mid]; exact List.mem_append.mpr (Or.inr (List.mem_cons_self _ _)))

theorem expand_registered_QF (ps : PrefixTable) (pfx ns localName : String)
    (hk : matchLocalName pfx = true) (hl : matchLocalName localName = true)
    (hlook : lookupKey ps pfx = some ns) (hns : ns ≠ "") :
    QF.expandQName ps (pfx ++ ":" ++ localName) = ns ++ localName := by
  have hpcol : ':' ∉ pfx.data := (matchLocalName_not_mem hk).1
  have hinc : includesSub (pfx ++ ":" ++ localName) "://" = false :=
    not_includes_of_no_slash (no_slash_of_grammar hk hl)
  have hsp := splitFirstColon_append pfx localName hpcol
  simp [QF.expandQName, mid_ne_empty pfx localName, hinc, hsp, hlook, hns]

theorem expand_registered_P2 (ps : PrefixTable) (pfx ns localName : String)
    (hk : matchLocalName pfx = true) (hl : matchLocalName localName = true)
    (hlook : lookupKey ps pfx = some ns) (hns : ns ≠ "")
    (hm1 : pfx ∉ MMM_URN_SCHEMES) (hm2 : pfx ∉ STANDARD_SCHEMES) :
    P2.expandQName ps (pfx ++ ":" ++ localName) = ns ++ localName := by
  have hpcol : ':' ∉ pfx.data := (matchLocalName_not_mem hk).1
  have hinc : includesSub (pfx ++ ":" ++ localName) "://" = false :=
    not_includes_of_no_slash (no_slash_of_grammar hk hl)
  have hsp := splitFirstColon_append pfx localName hpcol
  simp [P2.expandQName, mid_ne_empty pfx localName, hinc, hsp, hlook, hns, hm1, hm2]

theorem scheme_no_colon {scheme : String}
    (h : scheme ∈ MMM_URN_SCHEMES ∨ scheme ∈ STANDARD_SCHEMES) :
    ':' ∉ scheme.data := by
  rcases h with h | h <;> (fin_cases h <;> decide)

theorem expand_scheme_P2 (ps : PrefixTable) (scheme x : String)
    (hsch : scheme ∈ MMM_URN_SCHEMES ∨ scheme ∈ STANDARD_SCHEMES) :
    P2.expandQName ps (scheme ++ ":" ++ x) = scheme ++ ":" ++ x := by
  have hcol : ':' ∉ scheme.data := scheme_no_colon hsch
  cases hinc : includesSub (scheme ++ ":" ++ x) "://" with
  | true => simp [P2.expandQName, hinc]
  | false =>
    have hsp := splitFirstColon_append scheme x hcol
    rcases hsch with h | h <;>
      simp [P2.expandQName, mid_ne_empty scheme x, hinc, hsp, h]

theorem expand_scheme_QF (ps : PrefixTable) (scheme x : String)
    (hcol : ':' ∉ scheme.data)
    (hlk : lookupKey ps scheme = none ∨ lookupKey ps scheme = some "") :
    QF.expandQName ps (scheme ++ ":" ++ x) = scheme ++ ":" ++ x := by
  cases hinc : includesSub (scheme ++ ":" ++ x) "://" with
  | true => simp [QF.expandQName, hinc]
  | false =>
    have hsp := splitFirstColon_append scheme x hcol
    rcases hlk with h | h <;>
      simp [QF.expandQName, mid_ne_empty scheme x, hinc, hsp, h]

theorem lookupKey_mem {ps : PrefixTable} {k v : String} (h : lookupKey ps k = some v) :
    (k, v) ∈ ps := by
  induction ps with
  | nil => cases h
  | cons kv rest ih =>
    obtain ⟨k1, v1⟩ := kv
    by_cases hk : k1 = k
    · simp only [lookupKey, if_pos hk] at h
      obtain rfl := Option.some.inj h
      rw [hk]
      exact List.mem_cons_self _ _
    · simp only [lookupKey, if_neg hk] at h
      exact List.mem_cons_of_mem _ (ih h)

theorem jsStartsWith_append (a b : String) : jsStartsWith (a ++ b) a = true := by
  unfold jsStartsWith
  rw [data_append]
  exact List.isPrefixOf_iff_prefix.mpr ⟨b.data, rfl⟩

theorem drop_append (a b : String) :
    (⟨((a ++ b).data).drop a.data.length⟩ : String) = b := by
  rw [data_append, List.drop_left]

theorem contractGo_first {value pfx ns : String} {ps : PrefixTable}
    (hmem : (pfx, ns) ∈ ps)
    (huniq : ∀ qm ∈ ps, jsStartsWith value qm.2 = true → qm.1 = pfx ∧ qm.2 = ns)
    (hstart : jsStartsWith value ns = true) :
    P2.contractGo value ps = pfx ++ ":" ++ ⟨value.data.drop ns.data.length⟩ := by
  induction ps with
  | nil => cases hmem
  | cons qm rest ih =>
    obtain ⟨q, m⟩ := qm
    by_cases hs : jsStartsWith value m = true
    · obtain ⟨hq, hm⟩ := huniq (q, m) (List.mem_cons_self _ _) hs
      simp only at hq hm
      subst hq
      subst hm
      simp [P2.contractGo, hs]
    · have hs2 : jsStartsWith value m = false := Bool.eq_false_iff.mpr hs
      simp only [P2.contractGo, hs2, Bool.false_eq_true, if_false]
      refine ih ?_ ?_
      · rcases List.mem_cons.mp hmem with h1 | h1
        · exfalso
          obtain ⟨-, hm⟩ := Prod.mk.injEq .. ▸ h1
          rw [← hm] at hs
          exact hs hstart
        · exact h1
      · exact fun qm2 hmem2 hsw => huniq qm2 (List.mem_cons_of_mem _ hmem2) hsw

theorem append_ne_empty_left {a b : String} (ha : a ≠ "") : a ++ b ≠ "" := by
  intro h
  have h2 : (a ++ b).data = [] := congrArg String.data h
  rw [data_append] at h2
  exact data_ne_nil ha (List.append_eq_nil.mp h2).1

theorem contract_expand_P2 (ps : PrefixTable) (pfx ns localName : String)
    (hk : matchLocalName pfx = true) (hl : matchLocalName localName = true)
    (hlook : lookupKey ps pfx = some ns) (hns : ns ≠ "")
    (hm1 : pfx ∉ MMM_URN_SCHEMES) (hm2 : pfx ∉ STANDARD_SCHEMES)
    (huniq : ∀ qm ∈ ps, jsStartsWith (ns ++ localName) qm.2 = true → qm.1 = pfx ∧ qm.2 = ns) :
    P2.contractUri ps (P2.expandQName ps (pfx ++ ":" ++ localName)) =
      pfx ++ ":" ++ localName := by
  rw [expand_registered_P2 ps pfx ns localName hk hl hlook hns hm1 hm2]
  unfold P2.contractUri
  rw [contractGo_first (lookupKey_mem hlook) huniq (jsStartsWith_append ns localName),
    drop_append]

theorem contract_expand_QF (ps : PrefixTable) (pfx ns localName : String)
    (hk : matchLocalName pfx = true) (hl : matchLocalName localName = true)
    (hlook : lookupKey ps pfx = some ns) (hns : ns ≠ "")
    (huniq : ∀ qm ∈ ps, jsStartsWith (ns ++ localName) qm.2 = true → qm.1 = pfx ∧ qm.2 = ns)
    (hincl : includesSub (ns ++ localName) "://" = true) :
    QF.contractUri ps (QF.expandQName ps (pfx ++ ":" ++ localName)) =
      pfx ++ ":" ++ localName := by
  rw [expand_registered_QF ps pfx ns localName hk hl hlook hns]
  have hne : ns ++ localName ≠ "" := append_ne_empty_left hns
  simp only [QF.contractUri, hincl, Bool.not_true, Bool.or_false, hne, if_false,
    decide_eq_true_eq, if_neg hne]
  rw [contractGo_first (lookupKey_mem hlook) huniq (jsStartsWith_append ns localName),
    drop_append]

/-! ### Claim C1 -/

/-- C1, counterexample: `foo://bar.com` contains `://` yet part_002's
`validateField` rejects it for both expected kinds `uri` and `qname`
(the scheme `foo` is neither reserved, standard, nor a registered
prefix), so a value containing `://` is not accepted unconditionally. -/
theorem claim_C1_counterexample :
    includesSub "foo://bar.com" "://" = true ∧
    P2.validateField COMMON_PREFIXES "foo://bar.com" "uri" = false ∧
    P2.validateField COMMON_PREFIXES "foo://bar.com" "qname" = false := by decide

/-- C1, amended: only quad-form.js's validator with expected kind `uri`
accepts every value containing `://` unconditionally; with kind `qname`
quad-form.js rejects every such value, and part_002's unified validator
(either kind) accepts a `://` value exactly when both halves of the
first-colon split are non-empty and the lowercased scheme is in the
reserved (MMM URN) or standard scheme sets — the prefix table never
makes such a value valid. -/
theorem claim_C1_amended (ps : PrefixTable) (v : String)
    (hv : includesSub v "://" = true) :
    QF.validateField ps v "uri" = true ∧
    QF.validateField ps v "qname" = false ∧
    P2.validateField ps v "uri" = p2UriVerdict v ∧
    P2.validateField ps v "qname" = p2UriVerdict v :=
  ⟨validateField_uri_QF ps v hv, validateField_qname_QF ps v hv,
   validateField_P2_uri ps v hv,
   (validateField_P2_kind_irrel ps v).trans (validateField_P2_uri ps v hv)⟩

/-- C1, witness: the amended theorem at `http://example.org/pg` over the
built-in table. -/
theorem claim_C1_witness :
    QF.validateField COMMON_PREFIXES "http://example.org/pg" "uri" = true ∧
    QF.validateField COMMON_PREFIXES "http://example.org/pg" "qname" = false ∧
    P2.validateField COMMON_PREFIXES "http://example.org/pg" "uri" =
      p2UriVerdict "http://example.org/pg" ∧
    P2.validateField COMMON_PREFIXES "http://example.org/pg" "qname" =
      p2UriVerdict "http://example.org/pg" :=
  claim_C1_amended COMMON_PREFIXES "http://example.org/pg" (by decide)

/-! ### Claim C2 -/

/-- C2, counterexample: the built-in table registers `ex` (lower case)
and nothing under `EX`, yet part_002 classifies `EX:Alice` as valid: the
scheme is lowercased before the prefix-table lookup, so a value whose
prefix differs from a registered key only in letter case is not
classified Invalid. -/
theorem claim_C2_counterexample :
    lookupKey COMMON_PREFIXES "ex" = some "http://example.org/" ∧
    lookupKey COMMON_PREFIXES "EX" = none ∧
    P2.validateField COMMON_PREFIXES "EX:Alice" "qname" = true := by decide

/-- C2, amended: in part_002 the scheme is lowercased once and that
lowercased scheme is used both for the (hence case-insensitive)
reserved/standard classification and for the prefix-table lookup — so a
lower-case registered key matches any casing of the prefix, while a
registered key containing an upper-case letter can never match; the
reserved/standard tests short-circuit ahead of the table.  In
quad-form.js's qname validator the lookup uses the prefix exactly as
written. -/
theorem claim_C2_amended (ps : PrefixTable) (scheme nss : String)
    (hcol : ':' ∉ scheme.data) (h0 : scheme ≠ "") (h1 : nss ≠ "") :
    (P2.validateField ps (scheme ++ ":" ++ nss) "qname" =
      (MMM_URN_SCHEMES.contains (jsToLower scheme) ||
       STANDARD_SCHEMES.contains (jsToLower scheme) ||
       ((lookupKey ps (jsToLower scheme)).isSome && matchLocalName nss))) ∧
    (QF.validateField ps (scheme ++ ":" ++ nss) "qname" =
      (matchQName (scheme ++ ":" ++ nss) && (lookupKey ps scheme).isSome)) :=
  ⟨validateField_P2_split ps scheme nss hcol h0 h1,
   validateField_QF_split ps scheme nss hcol⟩

/-- C2, witness: the amended characterization at `EX:Alice` over the
built-in table. -/
theorem claim_C2_witness :
    (P2.validateField COMMON_PREFIXES ("EX" ++ ":" ++ "Alice") "qname" =
      (MMM_URN_SCHEMES.contains (jsToLower "EX") ||
       STANDARD_SCHEMES.contains (jsToLower "EX") ||
       ((lookupKey COMMON_PREFIXES (jsToLower "EX")).isSome && matchLocalName "Alice"))) ∧
    (QF.validateField COMMON_PREFIXES ("EX" ++ ":" ++ "Alice") "qname" =
      (matchQName ("EX" ++ ":" ++ "Alice") && (lookupKey COMMON_PREFIXES "EX").isSome)) :=
  claim_C2_amended COMMON_PREFIXES "EX" "Alice" (by decide) (by decide) (by decide)

/-! ### Claim C3 -/

/-- C3, counterexample: `mntl` is a reserved (MMM URN) scheme and `publ`
is non-empty, yet quad-form.js's `expandQName` — which has no scheme
guard — rewrites `mntl:publ` to `urn:mmm:mntl:publ` because `mntl` is
also a registered prefix, so reserved identifiers are not fixed points
of that expand. -/
theorem claim_C3_counterexample :
    "mntl" ∈ MMM_URN_SCHEMES ∧ ("publ" : String) ≠ "" ∧
    QF.expandQName COMMON_PREFIXES "mntl:publ" = "urn:mmm:mntl:publ" ∧
    ("urn:mmm:mntl:publ" : String) ≠ "mntl:publ" := by decide

/-- C3, amended: reserved and standard scheme identifiers are fixed
points of part_002's `expandQName` for every rest string; quad-form.js's
`expandQName` fixes them only when the scheme is not also registered as
a prefix with a non-empty namespace. -/
theorem claim_C3_amended (ps : PrefixTable) (scheme x : String)
    (hsch : scheme ∈ MMM_URN_SCHEMES ∨ scheme ∈ STANDARD_SCHEMES)
    (_hx : x ≠ "") :
    P2.expandQName ps (scheme ++ ":" ++ x) = scheme ++ ":" ++ x ∧
    ((lookupKey ps scheme = none ∨ lookupKey ps scheme = some "") →
      QF.expandQName ps (scheme ++ ":" ++ x) = scheme ++ ":" ++ x) :=
  ⟨expand_scheme_P2 ps scheme x hsch,
   fun hlk => expand_scheme_QF ps scheme x (scheme_no_colon hsch) hlk⟩

/-- C3, witness: the amended theorem at `quad:abc` over the built-in
table (where `quad` is not a registered prefix). -/
theorem claim_C3_witness :
    P2.expandQName COMMON_PREFIXES ("quad" ++ ":" ++ "abc") = "quad" ++ ":" ++ "abc" ∧
    QF.expandQName COMMON_PREFIXES ("quad" ++ ":" ++ "abc") = "quad" ++ ":" ++ "abc" := by
  have h := claim_C3_amended COMMON_PREFIXES "quad" "abc" (Or.inl (by decide)) (by decide)
  exact ⟨h.1, h.2 (Or.inl (by decide))⟩

/-! ### Claim C4 -/

/-- C4, counterexample: `mntl` is registered in the built-in table with
namespace `urn:mmm:mntl:` and `publ` matches the local-name grammar,
yet part_002's `expandQName` returns `mntl:publ` unchanged (the
reserved-scheme guard fires before the prefix table), not
`urn:mmm:mntl:publ`. -/
theorem claim_C4_counterexample :
    lookupKey COMMON_PREFIXES "mntl" = some "urn:mmm:mntl:" ∧
    matchLocalName "publ" = true ∧
    P2.expandQName COMMON_PREFIXES "mntl:publ" = "mntl:publ" ∧
    ("mntl:publ" : String) ≠ "urn:mmm:mntl:" ++ "publ" := by decide

/-- C4, amended: for a registered prefix whose key matches the token
grammar and whose namespace is non-empty, quad-form.js's `expandQName`
always yields `namespace ++ local`; part_002's does so only when the
prefix is not itself a reserved or standard scheme name. -/
theorem claim_C4_amended (ps : PrefixTable) (pfx ns localName : String)
    (hk : matchLocalName pfx = true) (hl : matchLocalName localName = true)
    (hlook : lookupKey ps pfx = some ns) (hns : ns ≠ "") :
    QF.expandQName ps (pfx ++ ":" ++ localName) = ns ++ localName ∧
    (pfx ∉ MMM_URN_SCHEMES → pfx ∉ STANDARD_SCHEMES →
      P2.expandQName ps (pfx ++ ":" ++ localName) = ns ++ localName) :=
  ⟨expand_registered_QF ps pfx ns localName hk hl hlook hns,
   fun hm1 hm2 => expand_registered_P2 ps pfx ns localName hk hl hlook hns hm1 hm2⟩

/-- C4, witness: the amended theorem at `ex:Alice` over the built-in
table. -/
theorem claim_C4_witness :
    QF.expandQName COMMON_PREFIXES ("ex" ++ ":" ++ "Alice") = "http://example.org/" ++ "Alice" ∧
    P2.expandQName COMMON_PREFIXES ("ex" ++ ":" ++ "Alice") = "http://example.org/" ++ "Alice" := by
  have h := claim_C4_amended COMMON_PREFIXES "ex" "http://example.org/" "Alice"
    (by decide) (by decide) (by decide) (by decide)
  exact ⟨h.1, h.2 (by decide) (by decide)⟩

/-! ### Claim C5 -/

/-- C5: both `expandQName` implementations are total functions that
return their input unchanged whenever a value contains `://`, contains
no colon at all, or has an unregistered (including empty) prefix —
expansion is best-effort and never fails. -/
theorem claim_C5 :
    (∀ ps v, includesSub v "://" = true →
      P2.expandQName ps v = v ∧ QF.expandQName ps v = v) ∧
    (∀ ps v, ':' ∉ v.data →
      P2.expandQName ps v = v ∧ QF.expandQName ps v = v) ∧
    (∀ ps v pfx rest, splitFirstColon v = some (pfx, rest) → lookupKey ps pfx = none →
      P2.expandQName ps v = v ∧ QF.expandQName ps v = v) :=
  ⟨fun ps v hv => ⟨expand_includes_P2 ps v hv, expand_includes_QF ps v hv⟩,
   fun ps v hc => ⟨expand_nocolon_P2 ps v hc, expand_nocolon_QF ps v hc⟩,
   fun ps v pfx rest hsp hlk =>
     ⟨expand_unknown_P2 ps v pfx rest hsp hlk, expand_unknown_QF ps v pfx rest hsp hlk⟩⟩

/-- C5, witness: each conjunct applied at a concrete input over the
built-in table. -/
theorem claim_C5_witness :
    (P2.expandQName COMMON_PREFIXES "http://example.org/x" = "http://example.org/x" ∧
     QF.expandQName COMMON_PREFIXES "http://example.org/x" = "http://example.org/x") ∧
    (P2.expandQName COMMON_PREFIXES "hello" = "hello" ∧
     QF.expandQName COMMON_PREFIXES "hello" = "hello") ∧
    (P2.expandQName COMMON_PREFIXES "zzz:y" = "zzz:y" ∧
     QF.expandQName COMMON_PREFIXES "zzz:y" = "zzz:y") :=
  ⟨claim_C5.1 COMMON_PREFIXES "http://example.org/x" (by decide),
   claim_C5.2.1 COMMON_PREFIXES "hello" (by decide),
   claim_C5.2.2 COMMON_PREFIXES "zzz:y" "zzz" "y" (by decide) (by decide)⟩

/-! ### Claim C6 -/

/-- C6, counterexample: two failures of the round-trip law as stated.
Over the built-in table, `mntl` is registered with namespace
`urn:mmm:mntl:`, which is not a prefix of any other registered
namespace, yet quad-form.js's round trip yields `urn:mmm:mntl:publ`
(contractUri refuses values without `://`).  And over the table
`[(ex, http://e/), (exl, http://e/l/)]`, the namespace `http://e/l/` of
`exl` is not a prefix of the other namespace, yet part_002's round trip
of `exl:z` yields `ex:l/z` because the other namespace is a prefix of
the expansion and is scanned first. -/
theorem claim_C6_counterexample :
    (lookupKey COMMON_PREFIXES "mntl" = some "urn:mmm:mntl:" ∧
     matchLocalName "publ" = true ∧
     (COMMON_PREFIXES.all fun qm =>
       qm.1 == "mntl" || !(jsStartsWith qm.2 "urn:mmm:mntl:")) = true ∧
     QF.contractUri COMMON_PREFIXES (QF.expandQName COMMON_PREFIXES "mntl:publ") =
       "urn:mmm:mntl:publ" ∧
     ("urn:mmm:mntl:publ" : String) ≠ "mntl:publ") ∧
    (lookupKey [("ex", "http://e/"), ("exl", "http://e/l/")] "exl" = some "http://e/l/" ∧
     matchLocalName "z" = true ∧
     ([("ex", "http://e/"), ("exl", "http://e/l/")].all fun qm =>
       qm.1 == "exl" || !(jsStartsWith qm.2 "http://e/l/")) = true ∧
     P2.contractUri [("ex", "http://e/"), ("exl", "http://e/l/")]
       (P2.expandQName [("ex", "http://e/"), ("exl", "http://e/l/")] "exl:z") = "ex:l/z" ∧
     ("ex:l/z" : String) ≠ "exl:z") := by decide

/-- C6, amended: the round trip
`contract (expand (p ++ ":" ++ local)) = p ++ ":" ++ local` holds when
no registered entry other than `(p, n)` has a namespace that is a prefix
of `n ++ local` (a strictly stronger side condition than the claim's
"n is not a prefix of any other namespace"), and in addition — for
part_002 — `p` is not a reserved/standard scheme name, and — for
quad-form.js — the expansion contains `://`. -/
theorem claim_C6_amended (ps : PrefixTable) (pfx ns localName : String)
    (hk : matchLocalName pfx = true) (hl : matchLocalName localName = true)
    (hns : ns ≠ "") (hlook : lookupKey ps pfx = some ns)
    (huniq : ∀ qm ∈ ps, jsStartsWith (ns ++ localName) qm.2 = true →
      qm.1 = pfx ∧ qm.2 = ns) :
    (pfx ∉ MMM_URN_SCHEMES → pfx ∉ STANDARD_SCHEMES →
      P2.contractUri ps (P2.expandQName ps (pfx ++ ":" ++ localName)) =
        pfx ++ ":" ++ localName) ∧
    (includesSub (ns ++ localName) "://" = true →
      QF.contractUri ps (QF.expandQName ps (pfx ++ ":" ++ localName)) =
        pfx ++ ":" ++ localName) :=
  ⟨fun hm1 hm2 => contract_expand_P2 ps pfx ns localName hk hl hlook hns hm1 hm2 huniq,
   fun hincl => contract_expand_QF ps pfx ns localName hk hl hlook hns huniq hincl⟩

/-- C6, witness: the amended round trip at `ex:Alice` over the built-in
table. -/
theorem claim_C6_witness :
    P2.contractUri COMMON_PREFIXES
      (P2.expandQName COMMON_PREFIXES ("ex" ++ ":" ++ "Alice")) = "ex" ++ ":" ++ "Alice" ∧
    QF.contractUri COMMON_PREFIXES
      (QF.expandQName COMMON_PREFIXES ("ex" ++ ":" ++ "Alice")) = "ex" ++ ":" ++ "Alice" := by
  have h := claim_C6_amended COMMON_PREFIXES "ex" "http://example.org/" "Alice"
    (by decide) (by decide) (by decide) (by decide) (by decide)
  exact ⟨h.1 (by decide) (by decide), h.2 (by decide)⟩

/-! ### Claim C7 -/

/-- C7, counterexample: from the initial object state, switching the
object's type to the literal `rdf:HTML` (which enables the language
input) and then entering the language tag `en` leaves both tags set at
once — setting the language tag does not clear the datatype tag — and a
full-mode submission of that state emits a record carrying both `d` and
`l`. -/
theorem claim_C7_counterexample :
    (let ob := setLanguageInput (handleTypeChange initObjState "rdf:HTML") "en"
     let q := P2.buildQuad (withTags demoState ob) "2026-02-03T04:05:06Z"
     ob.datatype = "rdf:HTML" ∧ ob.language = "en" ∧
     P2.submitRun "full" none (withTags demoState ob) "2026-02-03T04:05:06Z" =
       ([Ev.submitted q], false, withTags demoState ob) ∧
     q.d = some "rdf:HTML" ∧ q.l = some "en") := by decide

/-- C7, amended: switching the object's representation to
prefixed-name/full-uri clears both tags and disables the language input;
but the tags are otherwise independent: entering a language tag leaves
the datatype tag unchanged, and switching to a literal type sets the
datatype tag while preserving any language tag, so a submitted record
can carry both `d` and `l`. -/
theorem claim_C7_amended :
    (∀ st t, t = "qname" ∨ t = "uri" →
      handleTypeChange st t = { datatype := "", language := "", langEnabled := false }) ∧
    (∀ st v, (setLanguageInput st v).datatype = st.datatype) ∧
    (∀ st t, t ≠ "qname" → t ≠ "uri" →
      (handleTypeChange st t).datatype = t ∧
      (handleTypeChange st t).language = st.language) := by
  refine ⟨?_, ?_, ?_⟩
  · intro st t h
    rcases h with rfl | rfl <;> simp [handleTypeChange]
  · intro st v
    simp only [setLanguageInput]
    split
    · split <;> rfl
    · rfl
  · intro st t h1 h2
    simp [handleTypeChange, h1, h2]

/-- C7, witness: the amended theorem applied at the initial state for a
`uri` switch, a language entry, and an `xsd:integer` switch. -/
theorem claim_C7_witness :
    handleTypeChange initObjState "uri" =
      { datatype := "", language := "", langEnabled := false } ∧
    (setLanguageInput initObjState "en").datatype = initObjState.datatype ∧
    ((handleTypeChange initObjState "xsd:integer").datatype = "xsd:integer" ∧
     (handleTypeChange initObjState "xsd:integer").language = initObjState.language) :=
  ⟨claim_C7_amended.1 initObjState "uri" (Or.inr rfl),
   claim_C7_amended.2.1 initObjState "en",
   claim_C7_amended.2.2 initObjState "xsd:integer" (by decide) (by decide)⟩

/-! ### Claim C8 -/

/-- C8: in the Minimal (nano) regime, submitting with an empty or
whitespace-only object field is a no-op — no `quad-submitted` event, no
storage call, and the field state is untouched. -/
theorem claim_C8 (st : FormState) (storage : StorageOutcome) (ts : String)
    (h : jsTrim st.object = "") :
    P2.submitRun "nano" storage st ts = ([], false, st) := by
  simp [P2.submitRun, P2.handleSubmit, h]

/-- C8, witness: a whitespace-only object field over the demo state with
a storage sink present. -/
theorem claim_C8_witness :
    P2.submitRun "nano" (some true) { demoState with object := "   " } "t0" =
      ([], false, { demoState with object := "   " }) :=
  claim_C8 { demoState with object := "   " } (some true) "t0" (by decide)

/-! ### Claim C9 -/

/-- C9: when the storage collaborator rejects, both iterations emit
`quad-submitted` first and then a dedicated `quad-error` — the submitted
notification is not retracted — and the final field state equals the
pre-submission state: no clearing or rollback (quad-form.js clears only
on the success and no-server paths). -/
theorem claim_C9 (st : FormState) (ts : String)
    (hs : st.subject ≠ "") (hp : st.predicate ≠ "") (ho : st.object ≠ "")
    (hg : st.graph ≠ "") :
    P2.submitRun "full" (some false) st ts =
      ([Ev.submitted (P2.buildQuad st ts), Ev.quadError], true, st) ∧
    QF.submitRun (some false) st ts =
      ([Ev.submitted (QF.buildQuad st ts), Ev.quadError], true, st) := by
  have hv1 : P2.validateOk "full" st = true := by
    simp [P2.validateOk, hs, hp, ho, hg]
  have hv2 : QF.validateOk st = true := by
    simp [QF.validateOk, hs, hp, ho, hg]
  constructor
  · simp [P2.submitRun, P2.handleSubmit, hv1, submitEffects]
  · simp [QF.submitRun, hv2]

/-- C9, witness: the rejection path run on the fully populated demo
state. -/
theorem claim_C9_witness :
    P2.submitRun "full" (some false) demoState "t1" =
      ([Ev.submitted (P2.buildQuad demoState "t1"), Ev.quadError], true, demoState) ∧
    QF.submitRun (some false) demoState "t1" =
      ([Ev.submitted (QF.buildQuad demoState "t1"), Ev.quadError], true, demoState) :=
  claim_C9 demoState "t1" (by decide) (by decide) (by decide) (by decide)

/-! ### Claim C10 -/

/-- C10: after `clear()`, `getField` yields the empty string for
subject, predicate and object, and the configured default graph for
`graph`; the representation modes are reset to their constructor
defaults (subject `uri`, predicate `qname`, object `uri`) and the
object's datatype and language tags are cleared. -/
theorem claim_C10 (st : FormState) :
    getField (clearState st) "subject" = "" ∧
    getField (clearState st) "predicate" = "" ∧
    getField (clearState st) "object" = "" ∧
    getField (clearState st) "graph" = st.defaultGraph ∧
    (clearState st).subjectType = "uri" ∧
    (clearState st).predicateType = "qname" ∧
    (clearState st).objectType = "uri" ∧
    (clearState st).objectDatatype = "" ∧
    (clearState st).objectLanguage = "" := by
  simp [getField, clearState]

end QuadFormModel
